import Mathlib

/-!
Verification of the firmware metadata decoders of this repository
(AMD PSP / Embedded Firmware Structure walker in `pkg/amd/manifest`, and the
Intel microcode decoder in `pkg/intel/microcode`), as a shallow embedding.

A firmware image is modelled as a length together with a byte function; Go
slices `image[k:]` become explicit offset arithmetic, `binary.Read` calls
become bounds-checked little-endian reads, and Go runtime panics (slice
bounds out of range, nil-pointer dereference) are modelled as an explicit
`crash` outcome distinct from an ordinary Go error return.
-/

namespace Fiano

/-- A firmware image: an immutable byte sequence of length `size`.
`byte i` is the byte at offset `i`; reads normalize with `% 256`. -/
structure ByteImage where
  size : Nat
  byte : Nat → Nat

/-- Read one byte (as in Go, bytes are 8-bit). -/
def readU8 (img : ByteImage) (i : Nat) : Nat := img.byte i % 256

/-- Little-endian 16-bit read at offset `i`. -/
def readU16 (img : ByteImage) (i : Nat) : Nat :=
  readU8 img i + 256 * readU8 img (i + 1)

/-- Little-endian 32-bit read at offset `i` (Go `binary.LittleEndian.Uint32`). -/
def readU32 (img : ByteImage) (i : Nat) : Nat :=
  readU8 img i + 256 * readU8 img (i + 1) + 65536 * readU8 img (i + 2) +
    16777216 * readU8 img (i + 3)

/-- Little-endian 64-bit read at offset `i`. -/
def readU64 (img : ByteImage) (i : Nat) : Nat :=
  readU32 img i + 4294967296 * readU32 img (i + 4)

/-- `pkg/bytes.Range`. Modelled from the spec: a pair `{offset, length}` in
bytes into the image (the `pkg/bytes` sources are not part of this tree). -/
structure Range where
  offset : Nat := 0
  length : Nat := 0
deriving DecidableEq

/-- The memory-mapping constant: physical base the top of flash is mapped at. -/
def mapping : Nat := 0xff000000

/-- `EmbeddedFirmwareStructureSignature`. -/
def embeddedFirmwareStructureSignature : Nat := 0x55aa55aa

/-- `PSPDirectoryTableCookie` (`"$PSP"`). -/
def pspDirectoryTableCookie : Nat := 0x50535024

/-- `PSPDirectoryTableLevel2Cookie` (`"$PL2"`). -/
def pspDirectoryTableLevel2Cookie : Nat := 0x324C5024

/-- `PSPDirectoryTableLevel2Entry` type tag (0x40). -/
def pspDirectoryTableLevel2Entry : Nat := 0x40

/-- `PSPDirectoryTableLevel2RecovAEntry` type tag (0x48). -/
def pspDirectoryTableLevel2RecovAEntry : Nat := 0x48

/-- `PSPDirectoryTableLevel2RecovBEntry` type tag (0x4A). -/
def pspDirectoryTableLevel2RecovBEntry : Nat := 0x4A

/-- `PSPDirectoryTableEntry`: `{type u8, subprogram u8, flags u16 giving
rom_id, size u32, location_or_value u64}` (16 bytes on the wire). -/
structure PSPDirectoryTableEntry where
  eType : Nat
  subprogram : Nat
  romId : Nat
  size : Nat
  locationOrValue : Nat
deriving DecidableEq

/-- `PSPDirectoryTable`: header fields, the `Range` it occupied (filled in by
callers of the parser, zero until then), and the entry list. -/
structure PSPDirectoryTable where
  pspCookie : Nat
  checksum : Nat
  totalEntries : Nat
  additionalInfo : Nat
  range : Range := {}
  entries : List PSPDirectoryTableEntry := []
deriving DecidableEq

/-- `PSPDirectoryTableLevel2RecovEntry`: the 16-byte indirection record
`{u16, u32, u32, u16, u32 location}` used by recovery entries. -/
structure PSPDirectoryTableLevel2RecovEntry where
  unknown1 : Nat
  unknown2 : Nat
  unknown3 : Nat
  unknown4 : Nat
  location : Nat
deriving DecidableEq

/-- `IsPSPDirLevel2Entry`: entry types 0x40, 0x48, 0x4A point to a level-2
PSP directory. -/
def isPSPDirLevel2Entry (e : PSPDirectoryTableEntry) : Bool :=
  e.eType = pspDirectoryTableLevel2Entry ||
  e.eType = pspDirectoryTableLevel2RecovAEntry ||
  e.eType = pspDirectoryTableLevel2RecovBEntry

/-- One parsed 16-byte PSP directory entry at offset `pos`
(`ParsePSPDirectoryTableEntry`): type, subprogram, `rom_id = (flags>>14)&3`,
size, location-or-value. -/
def parsePSPDirectoryTableEntry (img : ByteImage) (pos : Nat) :
    PSPDirectoryTableEntry :=
  { eType := readU8 img pos
    subprogram := readU8 img (pos + 1)
    romId := readU16 img (pos + 2) / 16384 % 4
    size := readU32 img (pos + 4)
    locationOrValue := readU64 img (pos + 8) }

/-- Parse `n` consecutive 16-byte PSP directory entries starting at `pos`. -/
def parsePSPEntries (img : ByteImage) (pos : Nat) : Nat → List PSPDirectoryTableEntry
  | 0 => []
  | n + 1 => parsePSPDirectoryTableEntry img pos :: parsePSPEntries img (pos + 16) n

/-- `ParsePSPDirectoryTable` on the slice `image[start:]`: read the 16-byte
header (each `binary.Read` fails when the buffer is exhausted), reject a
cookie matching neither the level-1 nor the level-2 constant, require
`total_entries * 16` bytes to remain, then read the entries. Returns the
table and the consumed length `16 + 16*total_entries`. -/
def parsePSPDirectoryTable (img : ByteImage) (start : Nat) :
    Except Unit (PSPDirectoryTable × Nat) :=
  if start + 4 > img.size then .error ()
  else
    let cookie := readU32 img start
    if cookie ≠ pspDirectoryTableCookie ∧ cookie ≠ pspDirectoryTableLevel2Cookie then
      .error ()
    else if start + 16 > img.size then .error ()
    else
      let te := readU32 img (start + 8)
      if img.size - (start + 16) < te * 16 then .error ()
      else
        .ok ({ pspCookie := cookie
               checksum := readU32 img (start + 4)
               totalEntries := te
               additionalInfo := readU32 img (start + 12)
               range := {}
               entries := parsePSPEntries img (start + 16) te },
             16 + 16 * te)

/-- Index of the first position `q ≥ cur` with `q + 4 ≤ size` whose four
bytes are the little-endian encoding of `c` (Go `bytes.Index` on the cookie
bytes); fuel-driven so that the kernel can evaluate it. -/
def firstIdxFromAux (img : ByteImage) (c : Nat) : Nat → Nat → Option Nat
  | _, 0 => none
  | cur, fuel + 1 =>
    if cur + 4 ≤ img.size then
      if readU32 img cur = c then some cur else firstIdxFromAux img c (cur + 1) fuel
    else none

/-- First occurrence of cookie `c` at or after `cur`. -/
def firstIdxFrom (img : ByteImage) (c : Nat) (cur : Nat) : Option Nat :=
  firstIdxFromAux img c cur (img.size + 1 - cur)

/-- Loop of `FindPSPDirectoryTable` over the slice `image[base:]`: find the
next `"$PSP"` cookie, try to parse there; on failure resume searching four
bytes further. The returned `Range.Offset` is relative to `base`, exactly as
the Go function returns offsets relative to the slice it was handed. -/
def findPSPLoop (img : ByteImage) (base : Nat) : Nat → Nat →
    Except Unit (PSPDirectoryTable × Range)
  | _, 0 => .error ()
  | cur, fuel + 1 =>
    match firstIdxFrom img pspDirectoryTableCookie cur with
    | none => .error ()
    | some q =>
      match parsePSPDirectoryTable img q with
      | .ok (t, len) => .ok (t, { offset := q - base, length := len })
      | .error _ => findPSPLoop img base (q + 4) fuel

/-- `FindPSPDirectoryTable` scanning the slice `image[base:]`. -/
def findPSPDirectoryTable (img : ByteImage) (base : Nat) :
    Except Unit (PSPDirectoryTable × Range) :=
  findPSPLoop img base base (img.size + 1)

/-- `ParseRecovEntry` on `image[start:]`: the 16-byte indirection record
`{u16, u32, u32, u16, u32 location}`; fails when fewer than 16 bytes remain. -/
def parseRecovEntry (img : ByteImage) (start : Nat) :
    Except Unit PSPDirectoryTableLevel2RecovEntry :=
  if start + 16 > img.size then .error ()
  else
    .ok { unknown1 := readU16 img start
          unknown2 := readU32 img (start + 2)
          unknown3 := readU32 img (start + 6)
          unknown4 := readU16 img (start + 10)
          location := readU32 img (start + 12) }

/-! ## Embedded Firmware Structure -/

/-- `EmbeddedFirmwareStructure`, restricted to the fields the walker reads.
On the wire (Go `encoding/binary` layout of the source struct, 87 bytes in
total because `SecondGenEFS` decodes as 3 `uint8` + 8 `bool` = 11 bytes):
signature at byte 0, the PSP legacy pointer at byte 16, the PSP modern
pointer at byte 20, the first three BIOS directory pointers at bytes 24, 28,
32, and the fourth (Family 17h models 60h-3Fh) at byte 47. -/
structure EmbeddedFirmwareStructure where
  signature : Nat
  pspLegacyDirectoryTablePointer : Nat
  pspDirectoryTablePointer : Nat
  biosDirectoryTableFamily17hModels00h0FhPointer : Nat
  biosDirectoryTableFamily17hModels10h1FhPointer : Nat
  biosDirectoryTableFamily17hModels30h3FhPointer : Nat
  biosDirectoryTableFamily17hModels60h3FhPointer : Nat
deriving DecidableEq

/-- Byte size of the EFS record as decoded by `binary.Read` of the source
struct (see `EmbeddedFirmwareStructure` above). -/
def efsByteSize : Nat := 87

/-- Errors of the overall walk. `crashed` models a Go runtime panic (slice
bounds out of range / nil-pointer dereference), which is distinct from an
ordinary error return. -/
inductive GErr where
  | efsNotFound
  | efsShortRead
  | efsBadSignature
  | crashed
deriving DecidableEq

/-- `ParseEmbeddedFirmwareStructure` on `image[off:]`: `binary.Read` of the
87-byte struct (fails when fewer bytes remain), then the signature check. -/
def parseEmbeddedFirmwareStructure (img : ByteImage) (off : Nat) :
    Except GErr (EmbeddedFirmwareStructure × Nat) :=
  if off + efsByteSize > img.size then .error .efsShortRead
  else
    let e : EmbeddedFirmwareStructure :=
      { signature := readU32 img off
        pspLegacyDirectoryTablePointer := readU32 img (off + 16)
        pspDirectoryTablePointer := readU32 img (off + 20)
        biosDirectoryTableFamily17hModels00h0FhPointer := readU32 img (off + 24)
        biosDirectoryTableFamily17hModels10h1FhPointer := readU32 img (off + 28)
        biosDirectoryTableFamily17hModels30h3FhPointer := readU32 img (off + 32)
        biosDirectoryTableFamily17hModels60h3FhPointer := readU32 img (off + 47) }
    if e.signature ≠ embeddedFirmwareStructureSignature then .error .efsBadSignature
    else .ok (e, efsByteSize)

/-- The six physical addresses `FindEmbeddedFirmwareStructure` probes,
in their source order. -/
def efsAddresses : List Nat :=
  [0xfffa0000, 0xfff20000, 0xffe20000, 0xffc20000, 0xff820000, 0xff020000]

/-- Loop body of `FindEmbeddedFirmwareStructure`. `phys2off` is the abstract
`Firmware.PhysAddrToOffset`; its result is a Go `uint64`, so the `offset+4`
bound check wraps modulo `2^64`, and a wrapped offset that passes the check
makes the subsequent slice/`Uint32` read panic (`crashed`). -/
def findEFSLoop (phys2off : Nat → Nat) (img : ByteImage) :
    List Nat → Except GErr (EmbeddedFirmwareStructure × Range)
  | [] => .error .efsNotFound
  | a :: rest =>
    let off := phys2off a % 2 ^ 64
    if (off + 4) % 2 ^ 64 > img.size then findEFSLoop phys2off img rest
    else if off + 4 > img.size then .error .crashed
    else if readU32 img off = embeddedFirmwareStructureSignature then
      match parseEmbeddedFirmwareStructure img off with
      | .ok (e, len) => .ok (e, { offset := off, length := len })
      | .error er => .error er
    else findEFSLoop phys2off img rest

/-- `FindEmbeddedFirmwareStructure`. -/
def findEmbeddedFirmwareStructure (phys2off : Nat → Nat) (img : ByteImage) :
    Except GErr (EmbeddedFirmwareStructure × Range) :=
  findEFSLoop phys2off img efsAddresses

/-! ## BIOS directory tables

`ParseBIOSDirectoryTable`, `FindBIOSDirectoryTable` and the BIOS entry/cookie
constants live in a source file that is not part of this tree (only their
callers in `firmware.go` are), so they are modelled from the spec. -/

/-- Modelled from the spec: the BIOS directory level-1 cookie (the spec says
only that the BIOS table is analogous to the PSP table with a different
cookie; the concrete value is taken as `"$BHD"`). -/
def biosDirectoryTableCookie : Nat := 0x44484224

/-- Modelled from the spec: the BIOS directory level-2 cookie (`"$BL2"`). -/
def biosDirectoryTableLevel2Cookie : Nat := 0x324C4224

/-- Modelled from the spec: the `BIOSDirectoryTableLevel2Entry` type tag,
the entry type whose `source_address` points to a level-2 BIOS directory. -/
def biosDirectoryTableLevel2Entry : Nat := 0x70

/-- Modelled from the spec: a BIOS directory entry — a type tag and a
`source_address` field (the spec leaves the rest of the layout open). -/
structure BIOSDirectoryTableEntry where
  eType : Nat
  sourceAddress : Nat
deriving DecidableEq

/-- Modelled from the spec: a BIOS directory table, analogous to
`PSPDirectoryTable` (header `{cookie, checksum, total_entries,
additional_info}` plus entries). -/
structure BIOSDirectoryTable where
  biosCookie : Nat
  checksum : Nat
  totalEntries : Nat
  additionalInfo : Nat
  entries : List BIOSDirectoryTableEntry := []
deriving DecidableEq

/-- Modelled from the spec: parse `n` 16-byte BIOS directory entries (type
tag first, `source_address` in the trailing 8 bytes). -/
def parseBIOSEntries (img : ByteImage) (pos : Nat) : Nat → List BIOSDirectoryTableEntry
  | 0 => []
  | n + 1 =>
    { eType := readU8 img pos, sourceAddress := readU64 img (pos + 8) } ::
      parseBIOSEntries img (pos + 16) n

/-- Modelled from the spec: `ParseBIOSDirectoryTable` on `image[start:]` —
read the 16-byte header, reject a cookie matching neither BIOS constant,
require `total_entries × 16 ≤ remaining`, read the entries; returns the
table and consumed length. -/
def parseBIOSDirectoryTable (img : ByteImage) (start : Nat) :
    Except Unit (BIOSDirectoryTable × Nat) :=
  if start + 4 > img.size then .error ()
  else
    let cookie := readU32 img start
    if cookie ≠ biosDirectoryTableCookie ∧ cookie ≠ biosDirectoryTableLevel2Cookie then
      .error ()
    else if start + 16 > img.size then .error ()
    else
      let te := readU32 img (start + 8)
      if img.size - (start + 16) < te * 16 then .error ()
      else
        .ok ({ biosCookie := cookie
               checksum := readU32 img (start + 4)
               totalEntries := te
               additionalInfo := readU32 img (start + 12)
               entries := parseBIOSEntries img (start + 16) te },
             16 + 16 * te)

/-- Modelled from the spec: loop of `FindBIOSDirectoryTable` (cookie-based
scan for additional BIOS directories), analogous to `findPSPLoop`. -/
def findBIOSLoop (img : ByteImage) (base : Nat) : Nat → Nat →
    Except Unit (BIOSDirectoryTable × Range)
  | _, 0 => .error ()
  | cur, fuel + 1 =>
    match firstIdxFrom img biosDirectoryTableCookie cur with
    | none => .error ()
    | some q =>
      match parseBIOSDirectoryTable img q with
      | .ok (t, len) => .ok (t, { offset := q - base, length := len })
      | .error _ => findBIOSLoop img base (q + 4) fuel

/-- Modelled from the spec: `FindBIOSDirectoryTable` scanning `image[base:]`. -/
def findBIOSDirectoryTable (img : ByteImage) (base : Nat) :
    Except Unit (BIOSDirectoryTable × Range) :=
  findBIOSLoop img base base (img.size + 1)

/-! ## The PSP firmware walk (`firmware.go`) -/

/-- `PSPDir` of `firmware.go`: a level-1 table (its `Range` stored inside the
table) and an optional list of level-2 tables (`*[]PSPDirectoryTable`; `none`
models the nil pointer before `AddPspL2Entry` ran). -/
structure PSPDir where
  pspDirectoryLevel1 : PSPDirectoryTable
  pspDirectoryLevel2 : Option (List PSPDirectoryTable) := none
deriving DecidableEq

/-- `BIOSDir` of `firmware.go`. -/
structure BIOSDir where
  biosDirectoryLevel1 : BIOSDirectoryTable
  biosDirectoryLevel1Range : Range := {}
  biosDirectoryLevel2 : Option BIOSDirectoryTable := none
  biosDirectoryLevel2Range : Range := {}
deriving DecidableEq

/-- `PSPFirmware`: the aggregate returned by the walk. -/
structure PSPFirmware where
  embeddedFirmware : EmbeddedFirmwareStructure
  embeddedFirmwareRange : Range
  biosDirectories : List BIOSDir
  pspDirectories : List PSPDir
deriving DecidableEq

/-- The raw-pointer translation used for the PSP directory pointers and the
level-2 entry locations (`if v > 0xff000000 { v -= 0xff000000 }`); this is
also, word for word, the heuristic rule stated by the spec. -/
def translatePtr (raw : Nat) : Nat :=
  if raw > mapping then raw - mapping else raw

/-- Follow discipline for the two `uint32` EFS PSP pointers in
`parsePSPFirmware`: translate, then follow only when nonzero and below
`uint32(len(image))`. Returns the offset parsed at, or `none` if skipped. -/
def followPspPtr32 (raw n : Nat) : Option Nat :=
  if translatePtr raw ≠ 0 ∧ translatePtr raw < n % 2 ^ 32 then
    some (translatePtr raw)
  else none

/-- Follow discipline for the `uint64` location/source-address fields in
`AddPspL2Entry` / `AddBiosL2Entry`: translate, then follow only when nonzero
and below the image length. -/
def followL2Loc (raw n : Nat) : Option Nat :=
  if translatePtr raw ≠ 0 ∧ translatePtr raw < n then some (translatePtr raw)
  else none

/-- The translation the BIOS-pointer loop applies: subtract the mapping
(with `uint32` wraparound) exactly when `int(offset) > len(image)`. -/
def biosTranslate (raw n : Nat) : Nat :=
  if raw > n then (raw + (2 ^ 32 - mapping)) % 2 ^ 32 else raw

/-- Follow discipline for the four `uint32` BIOS directory pointers in
`parsePSPFirmware`: skip `0` and `0xffffffff`; apply `biosTranslate`; skip
when still above the image length, otherwise parse at the result. -/
def followBiosPtr (raw n : Nat) : Option Nat :=
  if raw = 0 ∨ raw = 0xffffffff then none
  else if biosTranslate raw n > n then none
  else some (biosTranslate raw n)

/-- Loop of `AddPspL2Entry` over the level-1 entries. Every level-2-pointer
entry is processed (the loop has no break): translate its location, follow it
when in bounds, and append each successfully parsed level-2 table — with its
`Range.Offset` set to the (translated) entry location — to `dirs`. A failed
direct parse of a recovery entry (type 0x48/0x4A) goes through the 16-byte
indirection record; an unparsable record is dereferenced as a nil pointer
(`error ()`, a panic), and a record location beyond the image makes the
slice expression panic as well. -/
def addPspL2Loop (img : ByteImage) :
    List PSPDirectoryTableEntry → List PSPDirectoryTable →
      Except Unit (List PSPDirectoryTable)
  | [], dirs => .ok dirs
  | e :: rest, dirs =>
    if ¬ isPSPDirLevel2Entry e then addPspL2Loop img rest dirs
    else
      match followL2Loc e.locationOrValue img.size with
      | none => addPspL2Loop img rest dirs
      | some loc =>
        match parsePSPDirectoryTable img loc with
        | .ok (t, len) =>
          addPspL2Loop img rest
            (dirs ++ [{ t with range := { offset := loc, length := len } }])
        | .error _ =>
          if e.eType = pspDirectoryTableLevel2RecovAEntry ∨
              e.eType = pspDirectoryTableLevel2RecovBEntry then
            match parseRecovEntry img loc with
            | .error _ => .error ()
            | .ok rec =>
              if rec.location > img.size then .error ()
              else
                match parsePSPDirectoryTable img rec.location with
                | .ok (t2, len2) =>
                  addPspL2Loop img rest
                    (dirs ++ [{ t2 with range := { offset := loc, length := len2 } }])
                | .error _ => addPspL2Loop img rest dirs
          else addPspL2Loop img rest dirs

/-- `AddPspL2Entry`: run the loop over the level-1 entries and store the
collected list in `PSPDirectoryLevel2` (always non-nil afterwards). -/
def addPspL2Entry (p : PSPDir) (img : ByteImage) : Except Unit PSPDir :=
  (addPspL2Loop img p.pspDirectoryLevel1.entries []).map
    (fun dirs => { p with pspDirectoryLevel2 := some dirs })

/-- Loop of `AddBiosL2Entry`: skip entries of other types; for the first
entry of the level-2 type, translate its source address, attach the level-2
table when it parses, and stop (the loop body ends in `break`). -/
def addBiosL2Loop (img : ByteImage) (d : BIOSDir) :
    List BIOSDirectoryTableEntry → BIOSDir
  | [] => d
  | e :: rest =>
    if e.eType ≠ biosDirectoryTableLevel2Entry then addBiosL2Loop img d rest
    else
      match followL2Loc e.sourceAddress img.size with
      | none => d
      | some sa =>
        match parseBIOSDirectoryTable img sa with
        | .ok (t, len) =>
          { d with biosDirectoryLevel2 := some t
                   biosDirectoryLevel2Range := { offset := sa, length := len } }
        | .error _ => d

/-- `AddBiosL2Entry`. -/
def addBiosL2Entry (d : BIOSDir) (img : ByteImage) : BIOSDir :=
  addBiosL2Loop img d d.biosDirectoryLevel1.entries

/-- The legacy-PSP-directory block of `parsePSPFirmware` (it runs first).
On a successful direct parse the recorded `Range.Offset` — and the `offset`
variable threaded to the next block — is `uint64(efs.PSPDirectoryTablePointer)`,
the raw *modern* pointer, exactly as in the source. On a failed direct parse
the whole image is scanned; a scan failure resets `offset` to the zero
range's offset. Returns the grown directory list and the `offset` value. -/
def legacyPSPBranch (img : ByteImage) (efs : EmbeddedFirmwareStructure)
    (psps : List PSPDir) (offset : Nat) : Except Unit (List PSPDir × Nat) :=
  match followPspPtr32 efs.pspLegacyDirectoryTablePointer img.size with
  | none => .ok (psps, offset)
  | some lp =>
    match parsePSPDirectoryTable img lp with
    | .ok (t, len) =>
      (addPspL2Entry
          { pspDirectoryLevel1 :=
              { t with range := { offset := efs.pspDirectoryTablePointer, length := len } } }
          img).map
        (fun d => (psps ++ [d], efs.pspDirectoryTablePointer))
    | .error _ =>
      match findPSPDirectoryTable img 0 with
      | .ok (t, rng) =>
        (addPspL2Entry { pspDirectoryLevel1 := { t with range := rng } } img).map
          (fun d => (psps ++ [d], offset))
      | .error _ => .ok (psps, 0)

/-- The modern-PSP-directory block of `parsePSPFirmware` (it runs second).
On a failed direct parse the fallback scan starts at `image[offset+20:]`
with the incoming `offset` from the legacy block — the slice expression
panics when `offset + 20 > len(image)`. -/
def modernPSPBranch (img : ByteImage) (efs : EmbeddedFirmwareStructure)
    (psps : List PSPDir) (offset : Nat) : Except Unit (List PSPDir) :=
  match followPspPtr32 efs.pspDirectoryTablePointer img.size with
  | none => .ok psps
  | some mp =>
    match parsePSPDirectoryTable img mp with
    | .ok (t, len) =>
      (addPspL2Entry
          { pspDirectoryLevel1 := { t with range := { offset := mp, length := len } } }
          img).map
        (fun d => psps ++ [d])
    | .error _ =>
      if offset + 20 > img.size then .error ()
      else
        match findPSPDirectoryTable img (offset + 20) with
        | .ok (t, rng) =>
          (addPspL2Entry { pspDirectoryLevel1 := { t with range := rng } } img).map
            (fun d => psps ++ [d])
        | .error _ => .ok psps

/-- One iteration of the BIOS-pointer loop in `parsePSPFirmware`: follow the
raw pointer under `followBiosPtr`; on a successful parse append the new
`BIOSDir` (with `AddBiosL2Entry` applied to it). -/
def biosPtrStep (img : ByteImage) (dirs : List BIOSDir) (raw : Nat) : List BIOSDir :=
  match followBiosPtr raw img.size with
  | none => dirs
  | some o =>
    match parseBIOSDirectoryTable img o with
    | .error _ => dirs
    | .ok (t, len) =>
      dirs ++
        [addBiosL2Entry
          { biosDirectoryLevel1 := t
            biosDirectoryLevel1Range := { offset := o, length := len } } img]

/-- The four BIOS directory pointers of the EFS, in their declared order. -/
def biosDirectoryOffsets (efs : EmbeddedFirmwareStructure) : List Nat :=
  [efs.biosDirectoryTableFamily17hModels00h0FhPointer,
   efs.biosDirectoryTableFamily17hModels10h1FhPointer,
   efs.biosDirectoryTableFamily17hModels30h3FhPointer,
   efs.biosDirectoryTableFamily17hModels60h3FhPointer]

/-- The final unconditional cookie scan of `parsePSPFirmware`: a found BIOS
directory is appended (without level-2 promotion); a failed scan appends
nothing. -/
def biosScanAppend (img : ByteImage) (dirs : List BIOSDir) : List BIOSDir :=
  match findBIOSDirectoryTable img 0 with
  | .ok (t, rng) =>
    dirs ++ [{ biosDirectoryLevel1 := t, biosDirectoryLevel1Range := rng }]
  | .error _ => dirs

/-- The body of `parsePSPFirmware` after the EFS was found: legacy block,
modern block, BIOS pointer loop, final scan. An `error ()` is a Go panic. -/
def parsePSPWalk (img : ByteImage) (efs : EmbeddedFirmwareStructure) :
    Except Unit (List PSPDir × List BIOSDir) :=
  match legacyPSPBranch img efs [] 0 with
  | .error e => .error e
  | .ok (psps1, off1) =>
    match modernPSPBranch img efs psps1 off1 with
    | .error e => .error e
    | .ok psps2 =>
      .ok (psps2,
        biosScanAppend img ((biosDirectoryOffsets efs).foldl (biosPtrStep img) []))

/-- `parsePSPFirmware`: locate the EFS (its failure is the only ordinary
error return), then walk the directories; a panic in the walk surfaces as
`GErr.crashed`. The aggregate stores the EFS as parsed (the source copies
`*efs` into the result before mutating the pointer fields in place). -/
def parsePSPFirmware (phys2off : Nat → Nat) (img : ByteImage) :
    Except GErr PSPFirmware :=
  match findEmbeddedFirmwareStructure phys2off img with
  | .error e => .error e
  | .ok (efs, rng) =>
    match parsePSPWalk img efs with
    | .error _ => .error .crashed
    | .ok (psps, bios) =>
      .ok { embeddedFirmware := efs
            embeddedFirmwareRange := rng
            biosDirectories := bios
            pspDirectories := psps }

/-- `NewAMDFirmware` succeeds exactly when `parsePSPFirmware` does; we state
claims directly against `parsePSPFirmware`. -/
def newAMDFirmware (phys2off : Nat → Nat) (img : ByteImage) :
    Except GErr PSPFirmware :=
  parsePSPFirmware phys2off img

/-! ## Intel microcode decoder (`pkg/intel/microcode`) -/

/-- Byte `i` of a byte stream (a `List Nat`), normalized to 8 bits. -/
def byteAt (l : List Nat) (i : Nat) : Nat := l.getD i 0 % 256

/-- Little-endian 32-bit word of a byte stream at offset `i`. -/
def wordAt (l : List Nat) (i : Nat) : Nat :=
  byteAt l i + 256 * byteAt l (i + 1) + 65536 * byteAt l (i + 2) +
    16777216 * byteAt l (i + 3)

/-- The 48-byte microcode `Header`. Field comments in the source:
`HeaderDataSize // 0 means 2000`, `HeaderTotalSize // 0 means 2048`. -/
structure Header where
  headerVersion : Nat
  headerRevision : Nat
  headerDate : Nat
  headerProcessorSignature : Nat
  headerChecksum : Nat
  headerLoaderRevision : Nat
  headerProcessorFlags : Nat
  headerDataSize : Nat
  headerTotalSize : Nat
deriving DecidableEq

/-- Size in bytes of `Header` (`binary.Size(Header{})`): nine `uint32`
fields plus `Reserved1 [3]uint32`. -/
def headerByteSize : Nat := 48

/-- Decode the 48-byte header from the front of the stream. -/
def headerOf (l : List Nat) : Header :=
  { headerVersion := wordAt l 0
    headerRevision := wordAt l 4
    headerDate := wordAt l 8
    headerProcessorSignature := wordAt l 12
    headerChecksum := wordAt l 16
    headerLoaderRevision := wordAt l 20
    headerProcessorFlags := wordAt l 24
    headerDataSize := wordAt l 28
    headerTotalSize := wordAt l 32 }

/-- `getTotalSize` as written in the source: the default (taken whenever
`HeaderDataSize` is zero) is `binary.Size(Header{}) + 0x2000 = 48 + 8192`. -/
def getTotalSize (h : Header) : Nat :=
  if h.headerDataSize > 0 then h.headerTotalSize else headerByteSize + 0x2000

/-- `getDataSize` as written in the source: the default for a zero
`HeaderDataSize` is `0x2000 = 8192`. -/
def getDataSize (h : Header) : Nat :=
  if h.headerDataSize > 0 then h.headerDataSize else 0x2000

/-- `ExtendedSignature`: `{signature, processor_flags, checksum}`. -/
structure ExtendedSignature where
  signature : Nat
  processorFlags : Nat
  checksum : Nat
deriving DecidableEq

/-- `ExtendedSigTable` header: `{count, checksum, reserved[3]}` (20 bytes). -/
structure ExtendedSigTable where
  count : Nat
  checksum : Nat
deriving DecidableEq

/-- The parsed `Microcode` value. -/
structure Microcode where
  header : Header
  data : List Nat
  extSigTable : Option ExtendedSigTable := none
  extendedSignatures : List ExtendedSignature := []
deriving DecidableEq

/-- Read `n` 12-byte extended signatures starting at offset `pos`. -/
def readExtSignatures (l : List Nat) (pos : Nat) : Nat → List ExtendedSignature
  | 0 => []
  | n + 1 =>
    { signature := wordAt l pos
      processorFlags := wordAt l (pos + 4)
      checksum := wordAt l (pos + 8) } :: readExtSignatures l (pos + 12) n

/-- Wrapping 32-bit sum of the first `n/4` little-endian words of the
stream's first `n` bytes, before the final `mod 2^32`. The Go code
re-serializes the parsed header and data for this sum, and `uint32` fields
round-trip exactly, so summing the input bytes is the same computation. -/
def checkSum32 (l : List Nat) (n : Nat) : Nat :=
  (List.range (n / 4)).foldl (fun s i => s + wordAt l (4 * i)) 0

/-- Wrapping 32-bit sum of the `n/4` words of `l` starting at byte
offset `base`. -/
def checkSum32From (l : List Nat) (base n : Nat) : Nat :=
  (List.range (n / 4)).foldl (fun s i => s + wordAt l (base + 4 * i)) 0

/-- Errors of `ParseIntelMicrocode`, one constructor per distinct
`fmt.Errorf` site of the source. -/
inductive MErr where
  | ioHeader
  | badSize
  | badVersion
  | misalignedData
  | misalignedTotal
  | ioData
  | badChecksum
  | ioExtTable
  | ioExtSignature
  | badExtChecksum
deriving DecidableEq

/-- `ParseIntelMicrocode` over a byte stream: decode the 48-byte header,
run the sanity checks in source order, read the data block, validate the
32-bit checksum of header ∥ data, and — when the total size declares room
beyond header + data — read and checksum the extended signature table.
The two size comparisons (`getTotalSize < / ≤ getDataSize + header size`)
are `uint32` arithmetic in the source, so the sum wraps modulo `2^32`.
Mid-stream exhaustion while reading `count` signatures is the same error as
a short table, so both are folded into one length check per block. -/
def parseIntelMicrocode (l : List Nat) : Except MErr Microcode :=
  if l.length < headerByteSize then .error .ioHeader
  else if getTotalSize (headerOf l) <
      (getDataSize (headerOf l) + headerByteSize) % 2 ^ 32 then
    .error .badSize
  else if (headerOf l).headerLoaderRevision ≠ 1 ∨ (headerOf l).headerVersion ≠ 1 then
    .error .badVersion
  else if getDataSize (headerOf l) % 4 ≠ 0 then .error .misalignedData
  else if getTotalSize (headerOf l) % 4 ≠ 0 then .error .misalignedTotal
  else if l.length < headerByteSize + getDataSize (headerOf l) then .error .ioData
  else if checkSum32 l (headerByteSize + getDataSize (headerOf l)) % 2 ^ 32 ≠ 0 then
    .error .badChecksum
  else if getTotalSize (headerOf l) ≤
      (getDataSize (headerOf l) + headerByteSize) % 2 ^ 32 then
    .ok { header := headerOf l
          data := (l.drop headerByteSize).take (getDataSize (headerOf l)) }
  else if l.length < headerByteSize + getDataSize (headerOf l) + 20 then
    .error .ioExtTable
  else if l.length < headerByteSize + getDataSize (headerOf l) + 20 +
      12 * wordAt l (headerByteSize + getDataSize (headerOf l)) then
    .error .ioExtSignature
  else if checkSum32From l (headerByteSize + getDataSize (headerOf l))
      (20 + 12 * wordAt l (headerByteSize + getDataSize (headerOf l))) % 2 ^ 32 ≠ 0 then
    .error .badExtChecksum
  else
    .ok { header := headerOf l
          data := (l.drop headerByteSize).take (getDataSize (headerOf l))
          extSigTable := some
            { count := wordAt l (headerByteSize + getDataSize (headerOf l))
              checksum := wordAt l (headerByteSize + getDataSize (headerOf l) + 4) }
          extendedSignatures :=
            readExtSignatures l (headerByteSize + getDataSize (headerOf l) + 20)
              (wordAt l (headerByteSize + getDataSize (headerOf l))) }

/-! ## Concrete fixtures

The `Firmware` accessor is polymorphic over the physical-to-offset
translation (spec §4.1), so the fixtures use an accessor mapping the last
probed EFS address `0xFF020000` to offset 0, which keeps the images small. -/

/-- A physical-to-offset translation mapping `0xFF020000` to image offset 0
(a legitimate `Firmware` implementation; the accessor is polymorphic). -/
def fSmall (a : Nat) : Nat := a - 0xff020000

/-- Little-endian bytes of a 32-bit value. -/
def u32le (v : Nat) : List Nat :=
  [v % 256, v / 256 % 256, v / 65536 % 256, v / 16777216 % 256]

/-- Build an image of length `size` from sparse byte patches over a zero
background. -/
def mkImage (size : Nat) (patches : List (Nat × List Nat)) : ByteImage :=
  { size := size
    byte := fun i =>
      patches.foldr
        (fun p v => if p.1 ≤ i ∧ i < p.1 + p.2.length then p.2.getD (i - p.1) 0 else v)
        0 }

/-- Byte patches of an EFS record at offset 0 with the given pointer
fields (all other fields zero). -/
def efsPatches (legacy modern b0 b1 b2 b3 : Nat) : List (Nat × List Nat) :=
  [(0, u32le embeddedFirmwareStructureSignature),
   (16, u32le legacy), (20, u32le modern),
   (24, u32le b0), (28, u32le b1), (32, u32le b2), (47, u32le b3)]

/-- Bytes of a 16-byte PSP/BIOS directory header. -/
def dirHeaderBytes (cookie cksum te : Nat) : List Nat :=
  u32le cookie ++ u32le cksum ++ u32le te ++ u32le 0

/-- Bytes of one 16-byte PSP directory entry with the given type and
64-bit location (subprogram, flags, size zero). -/
def pspEntryBytes (ty loc : Nat) : List Nat :=
  [ty, 0, 0, 0] ++ u32le 0 ++ u32le loc ++ u32le 0

/-- Image for claim C5: EFS at 0, legacy pointer `0x100` (valid empty
table), modern pointer `0xFF000180` — it translates in-bounds to `0x180`
where no table lives, so the fallback scan slices `image[0xFF000194:]`. -/
def imgC5 : ByteImage :=
  mkImage 0x200
    (efsPatches 0x100 0xFF000180 0 0 0 0 ++
      [(0x100, dirHeaderBytes pspDirectoryTableCookie 0 0)])

/-- The EFS record parsed out of `imgC5`. -/
def efsC5 : EmbeddedFirmwareStructure :=
  { signature := embeddedFirmwareStructureSignature
    pspLegacyDirectoryTablePointer := 0x100
    pspDirectoryTablePointer := 0xFF000180
    biosDirectoryTableFamily17hModels00h0FhPointer := 0
    biosDirectoryTableFamily17hModels10h1FhPointer := 0
    biosDirectoryTableFamily17hModels30h3FhPointer := 0
    biosDirectoryTableFamily17hModels60h3FhPointer := 0 }

/-- Image for claim C6: legacy pointer `0x100` (valid empty table), modern
pointer `0xFFFFFFFF` (whose translation `0xFFFFFF` is out of bounds, so the
modern block is skipped). -/
def imgC6 : ByteImage :=
  mkImage 0x200
    (efsPatches 0x100 0xffffffff 0 0 0 0 ++
      [(0x100, dirHeaderBytes pspDirectoryTableCookie 0 0)])

/-- Image for claim C7: legacy pointer `0x100` (table with checksum 1),
modern pointer `0x140` (table with checksum 2). -/
def imgC7 : ByteImage :=
  mkImage 0x200
    (efsPatches 0x100 0x140 0 0 0 0 ++
      [(0x100, dirHeaderBytes pspDirectoryTableCookie 1 0),
       (0x140, dirHeaderBytes pspDirectoryTableCookie 2 0)])

/-- The EFS record parsed out of `imgC7`. -/
def efsC7 : EmbeddedFirmwareStructure :=
  { signature := embeddedFirmwareStructureSignature
    pspLegacyDirectoryTablePointer := 0x100
    pspDirectoryTablePointer := 0x140
    biosDirectoryTableFamily17hModels00h0FhPointer := 0
    biosDirectoryTableFamily17hModels10h1FhPointer := 0
    biosDirectoryTableFamily17hModels30h3FhPointer := 0
    biosDirectoryTableFamily17hModels60h3FhPointer := 0 }

/-- Image for claim C9 (the spec §8 recovery scenario, scaled down): modern
pointer `0x100` → level-1 table with one entry of recovery type 0x48 whose
location is `0x140`; at `0x140` the 16-byte indirection record
`{u16=2, u32=3, u32=0xFF, u16=0, u32 location=0x180}`; at `0x180` a valid
empty `"$PL2"` level-2 table. -/
def imgC9 : ByteImage :=
  mkImage 0x200
    (efsPatches 0 0x100 0 0 0 0 ++
      [(0x100, dirHeaderBytes pspDirectoryTableCookie 0 1 ++
          pspEntryBytes pspDirectoryTableLevel2RecovAEntry 0x140),
       (0x140, [2, 0] ++ u32le 3 ++ u32le 0xff ++ [0, 0] ++ u32le 0x180),
       (0x180, dirHeaderBytes pspDirectoryTableLevel2Cookie 0 0)])

/-- Image for claim C8: two valid empty `"$PL2"` tables at `0x20` and
`0x40` (used through `addPspL2Entry` directly, no EFS needed). -/
def imgC8 : ByteImage :=
  mkImage 0x80
    [(0x20, dirHeaderBytes pspDirectoryTableLevel2Cookie 7 0),
     (0x40, dirHeaderBytes pspDirectoryTableLevel2Cookie 8 0)]

/-- A level-1 `PSPDir` holding two entries of the plain level-2 pointer
type 0x40, pointing at `0x20` and `0x40` of `imgC8`. -/
def pC8 : PSPDir :=
  { pspDirectoryLevel1 :=
      { pspCookie := pspDirectoryTableCookie
        checksum := 0
        totalEntries := 2
        additionalInfo := 0
        range := {}
        entries :=
          [{ eType := pspDirectoryTableLevel2Entry, subprogram := 0, romId := 0,
             size := 0, locationOrValue := 0x20 },
           { eType := pspDirectoryTableLevel2Entry, subprogram := 0, romId := 0,
             size := 0, locationOrValue := 0x40 }] } }

/-! ## Spec-side comparison definitions and characterization helpers -/

/-- Whether probed address `a` carries the EFS signature: its translated
offset leaves room for a 32-bit word that equals `0x55AA55AA` (the spec's
wording for the search in §4.3). -/
def efsSignatureAt (f : Nat → Nat) (img : ByteImage) (a : Nat) : Bool :=
  decide (f a + 4 ≤ img.size) &&
    decide (readU32 img (f a) = embeddedFirmwareStructureSignature)

/-- The first address of the fixed probe list carrying the signature. -/
def efsFirstMatch (f : Nat → Nat) (img : ByteImage) : Option Nat :=
  efsAddresses.find? (efsSignatureAt f img)

/-- The (zero- or one-element) list of BIOS directories contributed by the
final cookie scan. -/
def biosScanList (img : ByteImage) : List BIOSDir :=
  match findBIOSDirectoryTable img 0 with
  | .ok (t, rng) =>
    [{ biosDirectoryLevel1 := t, biosDirectoryLevel1Range := rng }]
  | .error _ => []

/-- The level-2 table contributed by a single PSP level-1 entry in
`AddPspL2Entry` (in the runs where no panic occurs): `none` when the entry
is skipped or its parse fails, `some` of the parsed table (with the range
the source records) otherwise. -/
def pspL2OfEntry (img : ByteImage) (e : PSPDirectoryTableEntry) :
    Option PSPDirectoryTable :=
  if ¬ isPSPDirLevel2Entry e then none
  else
    match followL2Loc e.locationOrValue img.size with
    | none => none
    | some loc =>
      match parsePSPDirectoryTable img loc with
      | .ok (t, len) => some { t with range := { offset := loc, length := len } }
      | .error _ =>
        if e.eType = pspDirectoryTableLevel2RecovAEntry ∨
            e.eType = pspDirectoryTableLevel2RecovBEntry then
          match parseRecovEntry img loc with
          | .error _ => none
          | .ok rec =>
            if rec.location > img.size then none
            else
              match parsePSPDirectoryTable img rec.location with
              | .ok (t2, len2) =>
                some { t2 with range := { offset := loc, length := len2 } }
              | .error _ => none
        else none

/-- The effect of `AddBiosL2Entry` on the one entry it promotes. -/
def biosAttachFromEntry (img : ByteImage) (d : BIOSDir)
    (e : BIOSDirectoryTableEntry) : BIOSDir :=
  match followL2Loc e.sourceAddress img.size with
  | none => d
  | some sa =>
    match parseBIOSDirectoryTable img sa with
    | .ok (t, len) =>
      { d with biosDirectoryLevel2 := some t
               biosDirectoryLevel2Range := { offset := sa, length := len } }
    | .error _ => d

/-- All `Range`s appearing in one `PSPDir` of the aggregate. -/
def pspDirRanges (d : PSPDir) : List Range :=
  d.pspDirectoryLevel1.range ::
    (d.pspDirectoryLevel2.getD []).map (fun t => t.range)

/-- All `Range`s appearing in one `BIOSDir` of the aggregate. -/
def biosDirRanges (d : BIOSDir) : List Range :=
  d.biosDirectoryLevel1Range ::
    (match d.biosDirectoryLevel2 with
     | some _ => [d.biosDirectoryLevel2Range]
     | none => [])

/-- Every `Range` appearing in a returned `PSPFirmware` aggregate. -/
def aggregateRanges (r : PSPFirmware) : List Range :=
  r.embeddedFirmwareRange ::
    (r.pspDirectories.foldr (fun d acc => pspDirRanges d ++ acc) [] ++
      r.biosDirectories.foldr (fun d acc => biosDirRanges d ++ acc) [])

/-- A microcode header with every field zero (so `HeaderDataSize = 0` and
`HeaderTotalSize = 0`). -/
def hdrAllZero : Header :=
  { headerVersion := 0, headerRevision := 0, headerDate := 0
    headerProcessorSignature := 0, headerChecksum := 0
    headerLoaderRevision := 0, headerProcessorFlags := 0
    headerDataSize := 0, headerTotalSize := 0 }

/-- A microcode header with `HeaderDataSize = 4` but `HeaderTotalSize = 0`. -/
def hdrDataNoTotal : Header :=
  { hdrAllZero with headerDataSize := 4 }

/-- A 52-byte microcode stream: valid version/loader revision,
`data_size = 4`, `total_size = 52`, one data word `1`; its 32-bit word sum
is `59 ≠ 0`, so the checksum check must fail. -/
def ucodeC3 : List Nat :=
  u32le 1 ++ u32le 0 ++ u32le 0 ++ u32le 0 ++ u32le 0 ++ u32le 1 ++
    u32le 0 ++ u32le 4 ++ u32le 52 ++ u32le 0 ++ u32le 0 ++ u32le 0 ++ u32le 1

/-- An empty `BIOSDir` fixture (no entries) for witnesses. -/
def dW : BIOSDir :=
  { biosDirectoryLevel1 :=
      { biosCookie := biosDirectoryTableCookie, checksum := 0
        totalEntries := 0, additionalInfo := 0, entries := [] } }

/-- A default `PSPFirmware` used only as the `Option.getD` fallback in
witnesses. -/
def pfw0 : PSPFirmware :=
  { embeddedFirmware :=
      { signature := 0
        pspLegacyDirectoryTablePointer := 0
        pspDirectoryTablePointer := 0
        biosDirectoryTableFamily17hModels00h0FhPointer := 0
        biosDirectoryTableFamily17hModels10h1FhPointer := 0
        biosDirectoryTableFamily17hModels30h3FhPointer := 0
        biosDirectoryTableFamily17hModels60h3FhPointer := 0 }
    embeddedFirmwareRange := {}
    biosDirectories := []
    pspDirectories := [] }

/-! ## Claim theorems -/

/-- Claim C1, counterexample: the claimed single heuristic ("subtract
`Mapping` when the raw value exceeds `0xFF000000`, follow only when the
translated value is strictly below the image length") is violated by the
BIOS-directory-pointer loop. For raw pointer `0xFF000000` and image length
`0x1000`, the loop follows the pointer at offset `0` (it subtracts with
`uint32` wraparound because the raw value exceeds the image length), while
under the claimed rule the value translates to itself and must not be
followed since it is not below the image length. -/
theorem claim_c1_counterexample :
    followBiosPtr 0xff000000 0x1000 = some 0 ∧
    translatePtr 0xff000000 = 0xff000000 ∧ ¬ (0xff000000 < 0x1000) := by
  decide

/-- Claim C1, amended: each pointer site is fully characterized. The two
`uint32` EFS PSP pointers are followed exactly when their once-translated
value (by the `> 0xFF000000` subtract rule) is nonzero and below
`uint32(len(image))` — hence always strictly below the image length — and
then they are followed at that translated value. The `uint64` level-2
entry locations are followed exactly when the translated value is nonzero
and strictly below the image length. The four level-1 BIOS directory
pointers are followed exactly when the raw value is neither `0` nor
`0xFFFFFFFF` and the `biosTranslate` value (subtract `Mapping` with 32-bit
wraparound iff the raw value exceeds the image length) is at most — not
strictly below — the image length. -/
theorem claim_c1 (raw n : Nat) :
    (∀ t, followPspPtr32 raw n = some t ↔
      t = translatePtr raw ∧ t ≠ 0 ∧ t < n % 2 ^ 32) ∧
    (∀ t, followPspPtr32 raw n = some t → t < n) ∧
    (∀ t, followL2Loc raw n = some t ↔
      t = translatePtr raw ∧ t ≠ 0 ∧ t < n) ∧
    (∀ t, followBiosPtr raw n = some t ↔
      t = biosTranslate raw n ∧ raw ≠ 0 ∧ raw ≠ 0xffffffff ∧ t ≤ n) := by
  refine ⟨?_, ?_, ?_, ?_⟩
  · intro t
    constructor
    · intro ht
      unfold followPspPtr32 at ht
      split at ht
      next hc => cases ht; exact ⟨rfl, hc.1, hc.2⟩
      next => cases ht
    · rintro ⟨rfl, h0, hn⟩
      unfold followPspPtr32
      rw [if_pos ⟨h0, hn⟩]
  · intro t ht
    unfold followPspPtr32 at ht
    split at ht
    next hc => cases ht; exact lt_of_lt_of_le hc.2 (Nat.mod_le n (2 ^ 32))
    next => cases ht
  · intro t
    constructor
    · intro ht
      unfold followL2Loc at ht
      split at ht
      next hc => cases ht; exact ⟨rfl, hc.1, hc.2⟩
      next => cases ht
    · rintro ⟨rfl, h0, hn⟩
      unfold followL2Loc
      rw [if_pos ⟨h0, hn⟩]
  · intro t
    constructor
    · intro ht
      unfold followBiosPtr at ht
      split at ht
      next => cases ht
      next h0 =>
        split at ht
        next => cases ht
        next hc =>
          cases ht
          exact ⟨rfl, fun h => h0 (Or.inl h), fun h => h0 (Or.inr h), by omega⟩
    · rintro ⟨rfl, h1, h2, h3⟩
      unfold followBiosPtr
      rw [if_neg (show ¬ (raw = 0 ∨ raw = 0xffffffff) by tauto),
        if_neg (show ¬ biosTranslate raw n > n by omega)]

/-- Claim C1, witness for the amended statement: the completeness
directions instantiated — a direct-offset PSP pointer `0x100` in an image
of length `0x200` is followed at its in-bounds translated value, and a BIOS
pointer `0xFF000005` in an image of length `0x1000` (whose wraparound
translation is `5 ≤ 0x1000`) is followed at `5`. -/
theorem claim_c1_witness :
    followPspPtr32 0x100 0x200 = some 0x100 ∧ (0x100 : Nat) < 0x200 ∧
    followBiosPtr 0xff000005 0x1000 = some 5 :=
  ⟨((claim_c1 0x100 0x200).1 0x100).mpr (by decide),
   (claim_c1 0x100 0x200).2.1 0x100 (((claim_c1 0x100 0x200).1 0x100).mpr (by decide)),
   ((claim_c1 0xff000005 0x1000).2.2.2 5).mpr (by decide)⟩

/-- Helper: the EFS probe loop returns the parse at the first listed
address carrying the signature, provided no probed translated offset
overflows `uint64`. -/
theorem findEFSLoop_eq (f : Nat → Nat) (img : ByteImage) :
    ∀ as : List Nat, (∀ a ∈ as, f a + 4 < 2 ^ 64) →
      findEFSLoop f img as =
        match as.find? (efsSignatureAt f img) with
        | some a =>
          match parseEmbeddedFirmwareStructure img (f a) with
          | .ok (e, len) => .ok (e, { offset := f a, length := len })
          | .error er => .error er
        | none => .error .efsNotFound := by
  intro as
  induction as with
  | nil => intro _; rfl
  | cons a rest ih =>
    intro h
    have ha : f a + 4 < 2 ^ 64 := h a (by simp)
    have hmod : f a % 2 ^ 64 = f a := Nat.mod_eq_of_lt (by omega)
    have hmod4 : (f a + 4) % 2 ^ 64 = f a + 4 := Nat.mod_eq_of_lt ha
    have hrest := ih (fun x hx => h x (List.mem_cons_of_mem _ hx))
    by_cases h1 : f a + 4 > img.size
    · have hpa : efsSignatureAt f img a = false := by
        simp only [efsSignatureAt, Bool.and_eq_false_iff, decide_eq_false_iff_not]
        left
        omega
      simp only [findEFSLoop, hmod, hmod4, if_pos h1, List.find?_cons, hpa, hrest]
    · by_cases h2 : readU32 img (f a) = embeddedFirmwareStructureSignature
      · have hpa : efsSignatureAt f img a = true := by
          simp only [efsSignatureAt, Bool.and_eq_true, decide_eq_true_eq]
          exact ⟨by omega, h2⟩
        simp only [findEFSLoop, hmod, hmod4, if_neg h1, if_pos h2,
          List.find?_cons, hpa]
      · have hpa : efsSignatureAt f img a = false := by
          simp only [efsSignatureAt, Bool.and_eq_false_iff, decide_eq_false_iff_not]
          right
          exact h2
        simp only [findEFSLoop, hmod, hmod4, if_neg h1, if_neg h2,
          List.find?_cons, hpa, hrest]

/-- Claim C2: `FindEmbeddedFirmwareStructure` probes the six fixed physical
addresses in their listed order and returns the EFS parse at the translated
offset of the first address whose in-bounds 32-bit little-endian word equals
`0x55AA55AA`, and the EFS-not-found error when no listed address carries
the signature. (The hypothesis excludes the degenerate accessors whose
translated offsets overflow `uint64`.) -/
theorem claim_c2 (f : Nat → Nat) (img : ByteImage)
    (h : ∀ a ∈ efsAddresses, f a + 4 < 2 ^ 64) :
    findEmbeddedFirmwareStructure f img =
      match efsFirstMatch f img with
      | some a =>
        match parseEmbeddedFirmwareStructure img (f a) with
        | .ok (e, len) => .ok (e, { offset := f a, length := len })
        | .error er => .error er
      | none => .error .efsNotFound :=
  findEFSLoop_eq f img efsAddresses h

/-- Claim C2, witness: on `imgC7` with the `fSmall` accessor, the first
(and only) signature match is the last listed address `0xFF020000`, and the
search indeed returns the EFS parsed at its translated offset 0. -/
theorem claim_c2_witness :
    findEmbeddedFirmwareStructure fSmall imgC7 =
      match efsFirstMatch fSmall imgC7 with
      | some a =>
        match parseEmbeddedFirmwareStructure imgC7 (fSmall a) with
        | .ok (e, len) => .ok (e, { offset := fSmall a, length := len })
        | .error er => .error er
      | none => .error .efsNotFound :=
  claim_c2 fSmall imgC7 (by decide)

/-- Claim C4 (code bug): as written, `getDataSize` returns `0x2000 = 8192`
(not 2000) for a zero `HeaderDataSize`, `getTotalSize` then returns
`48 + 8192 = 8240` (not 2048), and the total-size default is keyed on
`HeaderDataSize`, so a zero `HeaderTotalSize` with a nonzero
`HeaderDataSize` yields a total size of 0 rather than 2048 — all contrary
to the source's own field comments (`// 0 means 2000`, `// 0 means 2048`). -/
theorem claim_c4_failing :
    getDataSize hdrAllZero = 8192 ∧ getTotalSize hdrAllZero = 8240 ∧
    getTotalSize hdrDataNoTotal = 0 ∧
    (8192 : Nat) ≠ 2000 ∧ (8240 : Nat) ≠ 2048 := by
  decide

/-- Claim C5, counterexample: `imgC5` contains a perfectly locatable EFS
(at offset 0), yet `parsePSPFirmware` does not return the aggregate: the
modern PSP pointer `0xFF000180` translates in bounds but holds no table, so
the fallback scan start `offset + 20 = 0xFF000194` exceeds the image length
and the slice expression `image[offset+20:]` panics. -/
theorem claim_c5_counterexample :
    findEmbeddedFirmwareStructure fSmall imgC5 =
      .ok (efsC5, { offset := 0, length := 87 }) ∧
    parsePSPFirmware fSmall imgC5 = .error GErr.crashed := by
  exact ⟨rfl, rfl⟩

/-- Claim C5, amended: `parsePSPFirmware` returns an ordinary error exactly
when locating/parsing the EFS does, and once the EFS is found no directory
failure produces an error — the walk either returns the aggregate (carrying
that EFS) or crashes with a Go panic (out-of-range fallback-scan start or
recovery indirection). -/
theorem claim_c5 (f : Nat → Nat) (img : ByteImage) :
    match findEmbeddedFirmwareStructure f img with
    | .error e => parsePSPFirmware f img = .error e
    | .ok (efs, rng) =>
        parsePSPFirmware f img = .error .crashed ∨
        ∃ r, parsePSPFirmware f img = .ok r ∧
          r.embeddedFirmware = efs ∧ r.embeddedFirmwareRange = rng := by
  cases hf : findEmbeddedFirmwareStructure f img with
  | error e => simp [parsePSPFirmware, hf]
  | ok x =>
    obtain ⟨efs, rng⟩ := x
    cases hw : parsePSPWalk img efs with
    | error e =>
      exact Or.inl (by simp [parsePSPFirmware, hf, hw])
    | ok pb =>
      obtain ⟨psps, bios⟩ := pb
      exact Or.inr
        ⟨{ embeddedFirmware := efs, embeddedFirmwareRange := rng
           biosDirectories := bios, pspDirectories := psps },
         by simp [parsePSPFirmware, hf, hw], rfl, rfl⟩

/-- Helper: `addBiosL2Loop` never touches the level-1 table or its range. -/
theorem addBiosL2Loop_level1 (img : ByteImage) :
    ∀ (es : List BIOSDirectoryTableEntry) (d : BIOSDir),
      (addBiosL2Loop img d es).biosDirectoryLevel1 = d.biosDirectoryLevel1 ∧
      (addBiosL2Loop img d es).biosDirectoryLevel1Range =
        d.biosDirectoryLevel1Range := by
  intro es
  induction es with
  | nil => intro d; exact ⟨rfl, rfl⟩
  | cons e rest ih =>
    intro d
    unfold addBiosL2Loop
    split
    · exact ih d
    · split
      · exact ⟨rfl, rfl⟩
      · split
        · exact ⟨rfl, rfl⟩
        · exact ⟨rfl, rfl⟩

/-- Claim C10: `AddPspL2Entry` and `AddBiosL2Entry` never modify the
level-1 directory they were handed (the Go `range` loop copies each entry,
so even the in-place location translation touches only the copy); only the
level-2 fields of the `PSPDir`/`BIOSDir` record are (re)set. -/
theorem claim_c10 (p : PSPDir) (d : BIOSDir) (img : ByteImage) :
    (∀ q, addPspL2Entry p img = .ok q →
      q.pspDirectoryLevel1 = p.pspDirectoryLevel1) ∧
    (addBiosL2Entry d img).biosDirectoryLevel1 = d.biosDirectoryLevel1 ∧
    (addBiosL2Entry d img).biosDirectoryLevel1Range =
      d.biosDirectoryLevel1Range := by
  refine ⟨?_, (addBiosL2Loop_level1 img _ d).1, (addBiosL2Loop_level1 img _ d).2⟩
  intro q hq
  unfold addPspL2Entry at hq
  cases hl : addPspL2Loop img p.pspDirectoryLevel1.entries [] with
  | error u => rw [hl] at hq; simp [Except.map] at hq
  | ok dirs =>
    rw [hl] at hq
    simp only [Except.map] at hq
    cases hq
    rfl

/-- Claim C10, witness: on the concrete `pC8`/`dW`/`imgC8` both operations
leave the level-1 data untouched. -/
theorem claim_c10_witness :
    ((addPspL2Entry pC8 imgC8).toOption.getD pC8).pspDirectoryLevel1 =
      pC8.pspDirectoryLevel1 ∧
    (addBiosL2Entry dW imgC8).biosDirectoryLevel1 = dW.biosDirectoryLevel1 ∧
    (addBiosL2Entry dW imgC8).biosDirectoryLevel1Range =
      dW.biosDirectoryLevel1Range :=
  ⟨(claim_c10 pC8 dW imgC8).1 _ (by rfl),
   (claim_c10 pC8 dW imgC8).2.1, (claim_c10 pC8 dW imgC8).2.2⟩

/-- Claim C6 (code bug): on `imgC6` the walk succeeds but the legacy PSP
directory's recorded range is `{0xFFFFFFFF, 16}` — far beyond the image
length `0x200` — because the legacy branch of `parsePSPFirmware` copies
`efs.PSPDirectoryTablePointer` (the raw modern pointer) into the range
offset of the directory it parsed at the legacy pointer. -/
theorem claim_c6_failing :
    (parsePSPFirmware fSmall imgC6).map
        (fun r => (aggregateRanges r).any
          (fun rg => decide (imgC6.size < rg.offset + rg.length))) = .ok true ∧
    (parsePSPFirmware fSmall imgC6).map
        (fun r => r.pspDirectories.map (fun d => d.pspDirectoryLevel1.range)) =
      .ok [{ offset := 0xffffffff, length := 16 }] ∧
    readU32 imgC6 16 = 0x100 ∧ readU32 imgC6 20 = 0xffffffff := by
  exact ⟨rfl, rfl, rfl, rfl⟩

/-- Claim C7, counterexample: in `imgC7` the legacy pointer (EFS byte 16)
is `0x100` where a table with checksum 1 lives, and the modern pointer
(EFS byte 20) is `0x140` where a table with checksum 2 lives; the returned
`PSPDirectories` list is `[1, 2]` — the legacy directory first — whereas
the claimed modern-then-legacy discovery order would produce `[2, 1]`. -/
theorem claim_c7_counterexample :
    readU32 imgC7 16 = 0x100 ∧ readU32 imgC7 20 = 0x140 ∧
    readU32 imgC7 (0x100 + 4) = 1 ∧ readU32 imgC7 (0x140 + 4) = 2 ∧
    (parsePSPFirmware fSmall imgC7).map
        (fun r => r.pspDirectories.map (fun d => d.pspDirectoryLevel1.checksum)) =
      .ok [1, 2] ∧
    ([1, 2] : List Nat) ≠ [2, 1] := by
  exact ⟨rfl, rfl, rfl, rfl, rfl, by decide⟩

/-- Claim C8, counterexample: `pC8` is a level-1 PSP directory with two
entries of the level-2 pointer type 0x40; `AddPspL2Entry` follows both and
attaches two level-2 directories, so more than one level-2 directory is
attached and entries after the first matching one are followed. -/
theorem claim_c8_counterexample :
    (addPspL2Entry pC8 imgC8).map
        (fun q => (q.pspDirectoryLevel2.getD []).length) = .ok 2 ∧
    ¬ (2 ≤ 1) := by
  exact ⟨rfl, by decide⟩

/-- Helper: `addBiosL2Loop` processes exactly the first entry of the
level-2 type and ignores everything after it. -/
theorem addBiosL2Loop_find (img : ByteImage) (d : BIOSDir) :
    ∀ es : List BIOSDirectoryTableEntry,
      addBiosL2Loop img d es =
        match es.find? (fun e => decide (e.eType = biosDirectoryTableLevel2Entry)) with
        | none => d
        | some e => biosAttachFromEntry img d e := by
  intro es
  induction es with
  | nil => rfl
  | cons e rest ih =>
    by_cases he : e.eType = biosDirectoryTableLevel2Entry
    · simp only [addBiosL2Loop, List.find?_cons, decide_eq_true he,
        if_neg (not_not_intro he)]
      rfl
    · simp only [addBiosL2Loop, List.find?_cons, decide_eq_false he, if_pos he]
      exact ih

/-- Helper: in the runs where `addPspL2Loop` returns (rather than panics),
its result is the incoming accumulator followed by the per-entry results of
every level-2-pointer entry, in entry order. -/
theorem addPspL2Loop_filterMap (img : ByteImage) :
    ∀ (es : List PSPDirectoryTableEntry) (dirs l : List PSPDirectoryTable),
      addPspL2Loop img es dirs = .ok l →
      l = dirs ++ es.filterMap (pspL2OfEntry img) := by
  intro es
  induction es with
  | nil =>
    intro dirs l h
    simp only [addPspL2Loop] at h
    cases h
    simp
  | cons e rest ih =>
    intro dirs l h
    by_cases hL2 : isPSPDirLevel2Entry e
    · rw [show addPspL2Loop img (e :: rest) dirs =
          (match followL2Loc e.locationOrValue img.size with
           | none => addPspL2Loop img rest dirs
           | some loc =>
             match parsePSPDirectoryTable img loc with
             | .ok (t, len) =>
               addPspL2Loop img rest
                 (dirs ++ [{ t with range := { offset := loc, length := len } }])
             | .error _ =>
               if e.eType = pspDirectoryTableLevel2RecovAEntry ∨
                   e.eType = pspDirectoryTableLevel2RecovBEntry then
                 match parseRecovEntry img loc with
                 | .error _ => .error ()
                 | .ok rec =>
                   if rec.location > img.size then .error ()
                   else
                     match parsePSPDirectoryTable img rec.location with
                     | .ok (t2, len2) =>
                       addPspL2Loop img rest
                         (dirs ++ [{ t2 with range := { offset := loc, length := len2 } }])
                     | .error _ => addPspL2Loop img rest dirs
               else addPspL2Loop img rest dirs) from by
            simp [addPspL2Loop, hL2]] at h
      cases hf : followL2Loc e.locationOrValue img.size with
      | none =>
        simp only [hf] at h
        rw [ih _ _ h, List.filterMap_cons]
        simp [pspL2OfEntry, hL2, hf]
      | some loc =>
        simp only [hf] at h
        cases hp : parsePSPDirectoryTable img loc with
        | ok tl =>
          obtain ⟨t, len⟩ := tl
          simp only [hp] at h
          rw [ih _ _ h, List.filterMap_cons]
          simp [pspL2OfEntry, hL2, hf, hp]
        | error u =>
          simp only [hp] at h
          by_cases hrec : e.eType = pspDirectoryTableLevel2RecovAEntry ∨
              e.eType = pspDirectoryTableLevel2RecovBEntry
          · rw [if_pos hrec] at h
            cases hr : parseRecovEntry img loc with
            | error v => simp only [hr] at h; cases h
            | ok rec =>
              simp only [hr] at h
              by_cases hloc : rec.location > img.size
              · rw [if_pos hloc] at h; cases h
              · rw [if_neg hloc] at h
                cases hp2 : parsePSPDirectoryTable img rec.location with
                | ok tl2 =>
                  obtain ⟨t2, len2⟩ := tl2
                  simp only [hp2] at h
                  rw [ih _ _ h, List.filterMap_cons]
                  simp [pspL2OfEntry, hL2, hf, hp, hrec, hr, hloc, hp2]
                | error w =>
                  simp only [hp2] at h
                  rw [ih _ _ h, List.filterMap_cons]
                  simp [pspL2OfEntry, hL2, hf, hp, hrec, hr, hloc, hp2]
          · rw [if_neg hrec] at h
            rw [ih _ _ h, List.filterMap_cons]
            simp [pspL2OfEntry, hL2, hf, hp, hrec]
    · rw [show addPspL2Loop img (e :: rest) dirs = addPspL2Loop img rest dirs from by
          simp [addPspL2Loop, hL2]] at h
      rw [ih _ _ h, List.filterMap_cons]
      simp [pspL2OfEntry, hL2]

/-- Claim C8, amended: for a BIOS level-1 directory, only the first entry
of the level-2 type is promoted and later matching entries are never
followed; for a PSP level-1 directory, however, `AddPspL2Entry` follows
every level-2-pointer entry (types 0x40/0x48/0x4A) and attaches one level-2
directory per successfully parsed pointer, in entry order. -/
theorem claim_c8 (img : ByteImage) (d : BIOSDir)
    (es : List PSPDirectoryTableEntry) (dirs l : List PSPDirectoryTable) :
    (addBiosL2Entry d img =
      match d.biosDirectoryLevel1.entries.find?
          (fun e => decide (e.eType = biosDirectoryTableLevel2Entry)) with
      | none => d
      | some e => biosAttachFromEntry img d e) ∧
    (addPspL2Loop img es dirs = .ok l →
      l = dirs ++ es.filterMap (pspL2OfEntry img)) :=
  ⟨addBiosL2Loop_find img d d.biosDirectoryLevel1.entries,
   addPspL2Loop_filterMap img es dirs l⟩

/-- Claim C8, witness: on `pC8`'s two-entry list over `imgC8` the loop
returns exactly the per-entry results of both level-2 pointer entries. -/
theorem claim_c8_witness :
    (addBiosL2Entry dW imgC8 =
      match dW.biosDirectoryLevel1.entries.find?
          (fun e => decide (e.eType = biosDirectoryTableLevel2Entry)) with
      | none => dW
      | some e => biosAttachFromEntry imgC8 dW e) ∧
    (addPspL2Loop imgC8 pC8.pspDirectoryLevel1.entries []).toOption.getD [] =
      [] ++ pC8.pspDirectoryLevel1.entries.filterMap (pspL2OfEntry imgC8) :=
  ⟨(claim_c8 imgC8 dW pC8.pspDirectoryLevel1.entries []
      ((addPspL2Loop imgC8 pC8.pspDirectoryLevel1.entries []).toOption.getD [])).1,
   (claim_c8 imgC8 dW pC8.pspDirectoryLevel1.entries []
      ((addPspL2Loop imgC8 pC8.pspDirectoryLevel1.entries []).toOption.getD [])).2
     (by rfl)⟩

/-- Helper: the modern-PSP block only appends to the incoming directory
list. -/
theorem modernPSPBranch_acc (img : ByteImage) (efs : EmbeddedFirmwareStructure)
    (psps : List PSPDir) (off : Nat) :
    modernPSPBranch img efs psps off =
      (modernPSPBranch img efs [] off).map (fun l => psps ++ l) := by
  unfold modernPSPBranch
  cases hfp : followPspPtr32 efs.pspDirectoryTablePointer img.size with
  | none => simp [hfp, Except.map]
  | some mp =>
    cases hp : parsePSPDirectoryTable img mp with
    | ok tl =>
      obtain ⟨t, len⟩ := tl
      cases ha : addPspL2Entry
          { pspDirectoryLevel1 :=
              { t with range := { offset := mp, length := len } } } img with
      | ok d => simp [hfp, hp, ha, Except.map]
      | error u => simp [hfp, hp, ha, Except.map]
    | error u =>
      by_cases hb : off + 20 > img.size
      · simp [hfp, hp, hb, Except.map]
      · cases hs : findPSPDirectoryTable img (off + 20) with
        | ok tr =>
          obtain ⟨t, rg⟩ := tr
          cases ha : addPspL2Entry
              { pspDirectoryLevel1 := { t with range := rg } } img with
          | ok d => simp [hfp, hp, hb, hs, ha, Except.map]
          | error v => simp [hfp, hp, hb, hs, ha, Except.map]
        | error v => simp [hfp, hp, hb, hs, Except.map]

/-- Helper: one BIOS-pointer iteration only appends to the incoming list. -/
theorem biosPtrStep_acc (img : ByteImage) (dirs : List BIOSDir) (raw : Nat) :
    biosPtrStep img dirs raw = dirs ++ biosPtrStep img [] raw := by
  unfold biosPtrStep
  cases hfb : followBiosPtr raw img.size with
  | none => simp [hfb]
  | some o =>
    cases hp : parseBIOSDirectoryTable img o with
    | ok tl => obtain ⟨t, len⟩ := tl; simp [hfb, hp]
    | error u => simp [hfb, hp]

/-- Helper: the final BIOS cookie scan only appends its (zero- or
one-element) contribution. -/
theorem biosScanAppend_eq (img : ByteImage) (dirs : List BIOSDir) :
    biosScanAppend img dirs = dirs ++ biosScanList img := by
  unfold biosScanAppend biosScanList
  cases hs : findBIOSDirectoryTable img 0 with
  | ok tr => obtain ⟨t, rg⟩ := tr; simp [hs]
  | error u => simp [hs]

/-- Claim C7, amended: after the EFS, `parsePSPFirmware` discovers pointers
in the fixed order legacy PSP directory, then modern PSP directory, then
the four BIOS directory pointers in their declared order, then the
unconditional full-image cookie scan; the returned `PSPDirectories` and
`BIOSDirectories` lists preserve exactly this order. -/
theorem claim_c7 (f : Nat → Nat) (img : ByteImage)
    (efs : EmbeddedFirmwareStructure) (rng : Range) (r : PSPFirmware)
    (hefs : findEmbeddedFirmwareStructure f img = .ok (efs, rng))
    (hr : parsePSPFirmware f img = .ok r) :
    ∃ l1 o1 l2,
      legacyPSPBranch img efs [] 0 = .ok (l1, o1) ∧
      modernPSPBranch img efs [] o1 = .ok l2 ∧
      r.pspDirectories = l1 ++ l2 ∧
      r.biosDirectories =
        biosPtrStep img [] efs.biosDirectoryTableFamily17hModels00h0FhPointer ++
        biosPtrStep img [] efs.biosDirectoryTableFamily17hModels10h1FhPointer ++
        biosPtrStep img [] efs.biosDirectoryTableFamily17hModels30h3FhPointer ++
        biosPtrStep img [] efs.biosDirectoryTableFamily17hModels60h3FhPointer ++
        biosScanList img := by
  unfold parsePSPFirmware at hr
  simp only [hefs] at hr
  cases hw : parsePSPWalk img efs with
  | error e => simp only [hw] at hr; cases hr
  | ok pb =>
    obtain ⟨psps, bios⟩ := pb
    simp only [hw] at hr
    cases hr
    unfold parsePSPWalk at hw
    cases hl : legacyPSPBranch img efs [] 0 with
    | error e => simp only [hl] at hw; cases hw
    | ok p1 =>
      obtain ⟨psps1, off1⟩ := p1
      simp only [hl] at hw
      cases hm' : modernPSPBranch img efs psps1 off1 with
      | error e => simp only [hm'] at hw; cases hw
      | ok psps2 =>
        simp only [hm'] at hw
        cases hw
        have hm0 := modernPSPBranch_acc img efs psps1 off1
        rw [hm'] at hm0
        cases hmb : modernPSPBranch img efs [] off1 with
        | error e => rw [hmb] at hm0; simp [Except.map] at hm0
        | ok l2 =>
          rw [hmb] at hm0
          simp only [Except.map] at hm0
          cases hm0
          refine ⟨psps1, off1, l2, ?_, ?_, ?_, ?_⟩
          · simp [hl]
          · simp [hmb]
          · rfl
          · show biosScanAppend img
                ((biosDirectoryOffsets efs).foldl (biosPtrStep img) []) = _
            rw [biosScanAppend_eq]
            simp only [biosDirectoryOffsets, List.foldl]
            rw [biosPtrStep_acc, biosPtrStep_acc, biosPtrStep_acc]

/-- Claim C9 (code bug): on `imgC9` (the §8 recovery scenario scaled down:
indirection record at `0x140` whose location field — read below as
`readU32 imgC9 (0x140 + 12)` — is `0x180`), the attached level-2 directory
is indeed the `"$PL2"` table parsed at `0x180`, but its recorded range
offset is `0x140`, the indirection record's own location, not `0x180` as
the claim requires. -/
theorem claim_c9_failing :
    (parsePSPFirmware fSmall imgC9).map
        (fun r => r.pspDirectories.map
          (fun d => (d.pspDirectoryLevel2.getD []).map
            (fun t => (t.pspCookie, t.range)))) =
      .ok [[(pspDirectoryTableLevel2Cookie, { offset := 0x140, length := 16 })]] ∧
    readU32 imgC9 (0x140 + 12) = 0x180 ∧ (0x140 : Nat) ≠ 0x180 := by
  exact ⟨rfl, rfl, by decide⟩

/-- Claim C7, witness: the amended order theorem instantiated on `imgC7`,
whose EFS is `efsC7` at range `{0, 87}`. -/
theorem claim_c7_witness :
    ∃ l1 o1 l2,
      legacyPSPBranch imgC7 efsC7 [] 0 = .ok (l1, o1) ∧
      modernPSPBranch imgC7 efsC7 [] o1 = .ok l2 ∧
      ((parsePSPFirmware fSmall imgC7).toOption.getD pfw0).pspDirectories =
        l1 ++ l2 ∧
      ((parsePSPFirmware fSmall imgC7).toOption.getD pfw0).biosDirectories =
        biosPtrStep imgC7 [] efsC7.biosDirectoryTableFamily17hModels00h0FhPointer ++
        biosPtrStep imgC7 [] efsC7.biosDirectoryTableFamily17hModels10h1FhPointer ++
        biosPtrStep imgC7 [] efsC7.biosDirectoryTableFamily17hModels30h3FhPointer ++
        biosPtrStep imgC7 [] efsC7.biosDirectoryTableFamily17hModels60h3FhPointer ++
        biosScanList imgC7 :=
  claim_c7 fSmall imgC7 efsC7 { offset := 0, length := 87 }
    ((parsePSPFirmware fSmall imgC7).toOption.getD pfw0) (by rfl) (by rfl)

/-- Claim C3: for every stream whose 48-byte header passes the version,
alignment and size checks (the size check being the source's own wrapped
`uint32` comparison) and which carries a full data block, the decoder
returns the bad-checksum error — and hence no `Microcode` value — exactly
when the 32-bit little-endian word sum of header ∥ data is nonzero modulo
`2^32`. -/
theorem claim_c3 (l : List Nat)
    (hlen : headerByteSize ≤ l.length)
    (hver : (headerOf l).headerLoaderRevision = 1 ∧ (headerOf l).headerVersion = 1)
    (hsize : ¬ getTotalSize (headerOf l) <
      (getDataSize (headerOf l) + headerByteSize) % 2 ^ 32)
    (hal1 : getDataSize (headerOf l) % 4 = 0)
    (hal2 : getTotalSize (headerOf l) % 4 = 0)
    (hdata : headerByteSize + getDataSize (headerOf l) ≤ l.length) :
    parseIntelMicrocode l = .error .badChecksum ↔
      checkSum32 l (headerByteSize + getDataSize (headerOf l)) % 2 ^ 32 ≠ 0 := by
  unfold parseIntelMicrocode
  rw [if_neg (show ¬ l.length < headerByteSize by omega)]
  rw [if_neg hsize]
  rw [if_neg (show ¬ ((headerOf l).headerLoaderRevision ≠ 1 ∨
      (headerOf l).headerVersion ≠ 1) by simp [hver.1, hver.2])]
  rw [if_neg (show ¬ getDataSize (headerOf l) % 4 ≠ 0 by simp [hal1])]
  rw [if_neg (show ¬ getTotalSize (headerOf l) % 4 ≠ 0 by simp [hal2])]
  rw [if_neg (show ¬ l.length < headerByteSize + getDataSize (headerOf l) by omega)]
  by_cases hc : checkSum32 l (headerByteSize + getDataSize (headerOf l)) % 2 ^ 32 ≠ 0
  · rw [if_pos hc]
    simpa using hc
  · rw [if_neg hc]
    have hne : (if getTotalSize (headerOf l) ≤
          (getDataSize (headerOf l) + headerByteSize) % 2 ^ 32 then
        (.ok { header := headerOf l
               data := (l.drop headerByteSize).take (getDataSize (headerOf l)) } :
          Except MErr Microcode)
      else if l.length < headerByteSize + getDataSize (headerOf l) + 20 then
        .error .ioExtTable
      else if l.length < headerByteSize + getDataSize (headerOf l) + 20 +
          12 * wordAt l (headerByteSize + getDataSize (headerOf l)) then
        .error .ioExtSignature
      else if checkSum32From l (headerByteSize + getDataSize (headerOf l))
          (20 + 12 * wordAt l (headerByteSize + getDataSize (headerOf l))) %
            2 ^ 32 ≠ 0 then
        .error .badExtChecksum
      else
        .ok { header := headerOf l
              data := (l.drop headerByteSize).take (getDataSize (headerOf l))
              extSigTable := some
                { count := wordAt l (headerByteSize + getDataSize (headerOf l))
                  checksum :=
                    wordAt l (headerByteSize + getDataSize (headerOf l) + 4) }
              extendedSignatures :=
                readExtSignatures l
                  (headerByteSize + getDataSize (headerOf l) + 20)
                  (wordAt l (headerByteSize + getDataSize (headerOf l))) }) ≠
        Except.error MErr.badChecksum := by
      split
      · simp
      · split
        · simp
        · split
          · simp
          · split
            · simp
            · simp
    exact ⟨fun he => absurd he hne, fun hs => absurd hs hc⟩

/-- Claim C3, witness: the 52-byte stream `ucodeC3` passes all header
checks, its word sum is 59 ≠ 0, and the decoder returns the bad-checksum
error on it. -/
theorem claim_c3_witness :
    parseIntelMicrocode ucodeC3 = .error .badChecksum :=
  (claim_c3 ucodeC3 (by decide) (by decide) (by decide) (by decide) (by decide)
    (by decide)).mpr (by decide)

end Fiano
